import Mathlib

/-!
Verification development for the AST layer of the go-plus front end
(src/goplus/ast.py and src/goplus/utils.py).

The Python code is reflective: a metaclass (`StrictFields`, utils.py) turns each
class declaration into a fixed `__slots__` tuple plus a synthesized `__init__`
that installs type-derived defaults (`_make_init`); every node inherits a
cycle-guarded debug dump (`Node._build`) and declares a hand-written `clone`.

The embedding models the object graph explicitly: a store is a list of objects
addressed by index (Python object identity), each object carries its class tag,
its position metadata (row, col, file - the `Node` slots set by
`Node.__init__`), and an association list of assigned slots.  The per-class
schema data (field declarations with their annotations, the clone method
bodies, the class-level `kind` tags of the `Value` subclasses) is transcribed
from ast.py as tables, and the generic machinery (`_make_init`, `_build`,
attribute access on slotted instances) is interpreted over those tables.

Recursive traversals (`dump`, `clone`) take an explicit fuel argument so that
they are structurally recursive and reduce inside the kernel; a separate
adequacy theorem shows fuel is never the reason `dump` stops, which is exactly
the termination guarantee of the cycle guard.
-/

namespace GoPlus

/-- Modelled from the spec: token kind tags exposed by the external tokenizer
(spec section 6 lists identifier / int / float / rune / string / complex /
operator / comment / end-of-stream, and ast.py additionally references
`TokenType.Bool` for the virtual `Bool` node). -/
inductive TokenType
  | Int | Bool | Name | Rune | Float | String | Complex | Operator
  | Comments | End
deriving DecidableEq

/-- The node classes declared in ast.py, one constructor per `class ... (Node)`
declaration (the abstract bases `Node` and `Value` are not instantiated by the
clone or dump protocol and carry no constructor of their own here; their slots
and hand-written constructors are folded into the machinery below). -/
inductive Cls
  | Int | Bool | Name | Rune | Float | String | Complex | Operator
  | MapType | ArrayType | SliceType | NamedType | StructType | StructField
  | ChannelType | PointerType | FunctionType | FunctionArgument
  | FunctionSignature | InterfaceType | InterfaceMethod
  | Primary | Conversion | Expression | Lambda | VarArrayType
  | LiteralValue | Element | Composite
  | Index | Slice | Selector | Arguments | Assertion
  | LinkSpec | InitSpec | TypeSpec | Function | ImportC | ImportHere
  | ImportSpec | Package
  | Go | If | For | ForRange | Defer | Select | SelectCase | SelectReceive
  | Switch | SwitchCase | TypeSwitch | TypeSwitchCase
  | Goto | Label | Return | Break | Continue | Fallthrough
  | Send | Empty | IncDec | Assignment | CompoundStatement
deriving DecidableEq, Fintype

/-- Runtime values a slot can hold: a reference to another node in the store
(Python object identity), Python lists / tuples / dicts, and the primitive
payloads that occur in the schema (None, bool, int, str, bytes, complex, a
TokenType, a flags enumeration value, or a `types.Type` inference result).
Raw bytes and complex numbers are carried as the text `_build_val` renders
them to, since their internal structure is never consumed by this layer. -/
inductive FieldVal
  | ref (i : Nat)
  | list (xs : List FieldVal)
  | vtuple (xs : List FieldVal)
  | vdict (xs : List (FieldVal × FieldVal))
  | vnone
  | vbool (b : Bool)
  | vint (n : Int)
  | vstr (s : String)
  | vbytes (s : String)
  | vcomplex (s : String)
  | tok (t : TokenType)
  | flags (n : Nat)
  | tyv (s : String)

/-- The nested key/value structure produced by `Node._build` (dump). -/
inductive JVal
  | null
  | jbool (b : Bool)
  | jint (n : Int)
  | jstr (s : String)
  | jtok (t : TokenType)
  | jflags (n : Nat)
  | jty (s : String)
  | jlist (xs : List JVal)
  | jdict (xs : List (FieldVal × JVal))
  | jobj (entries : List (String × JVal))

/-- Failures surfaced by the runtime: AttributeError (reading an unset slot,
assigning outside the slot set, or calling `.clone()` on a non-node),
AssertionError (token-kind checks in hand-written constructors), TypeError
(iterating a non-sequence), a dangling store reference, and fuel exhaustion
of the embedding (not a Python behaviour; see the adequacy theorem). -/
inductive Err
  | attributeError (name : String)
  | assertionError
  | typeError
  | badRef (i : Nat)
  | fuel
deriving DecidableEq

/-- The annotation language of the schema: exactly the shapes that occur in the
`__annotations__` consumed by `StrictFields` / `_make_init` (utils.py 51-93).
`punion` is a (flattened) `typing.Union`; `Optional[X]` is the union of `X`
with `pnone` (NoneType), in the normalized order Python produces.  `pdict` and
`ptuple` mirror the `Dict` / `Tuple` branches of `_make_init`; no field of this
schema uses them.  `tokenValue` stands for the tokenizer alias `TokenValue`
(external, a union of primitive payload types: mandatory, like any union with
neither `bool` nor NoneType); `tyT` is `types.Type`, the inference result. -/
inductive PyType
  | bool | int | str
  | tokenType | tokenValue
  | channelOptions | functionOptions
  | tyT
  | pnone
  | cls (c : Cls)
  | plist (t : PyType)
  | pdict | ptuple
  | punion (args : List PyType)

/-- `Type` alias (ast.py 264-274), in declaration order. -/
def typeArgs : List PyType :=
  [.cls .MapType, .cls .ArrayType, .cls .SliceType, .cls .NamedType,
   .cls .StructType, .cls .ChannelType, .cls .PointerType, .cls .FunctionType,
   .cls .InterfaceType]

/-- `LiteralType` alias (ast.py 338-345). -/
def literalTypeArgs : List PyType :=
  [.cls .MapType, .cls .ArrayType, .cls .NamedType, .cls .SliceType,
   .cls .StructType, .cls .VarArrayType]

/-- `Constant` alias (ast.py 375-382). -/
def constantArgs : List PyType :=
  [.cls .Int, .cls .Bool, .cls .Rune, .cls .Float, .cls .String, .cls .Complex]

/-- `Operand` alias (ast.py 384-391), flattened the way `typing.Union` flattens
the nested `Constant` union. -/
def operandArgs : List PyType :=
  [.cls .Name, .cls .Lambda] ++ constantArgs ++
  [.cls .Composite, .cls .Conversion, .cls .Expression]

/-- `Modifier` alias (ast.py 439-445). -/
def modifierArgs : List PyType :=
  [.cls .Index, .cls .Slice, .cls .Selector, .cls .Arguments, .cls .Assertion]

/-- `SimpleStatement` alias (ast.py 771-778). -/
def simpleStatementArgs : List PyType :=
  [.cls .Send, .cls .Empty, .cls .IncDec, .cls .InitSpec, .cls .Assignment,
   .cls .Expression]

/-- `Statement` alias (ast.py 790-809), flattened. -/
def statementArgs : List PyType :=
  [.cls .Go, .cls .If, .cls .For, .cls .Goto, .cls .Break, .cls .Defer,
   .cls .Label, .cls .Switch, .cls .Select, .cls .Return, .cls .ForRange,
   .cls .Continue, .cls .TypeSwitch, .cls .Fallthrough,
   .plist (.cls .InitSpec), .plist (.cls .TypeSpec)] ++
  simpleStatementArgs ++ [.cls .CompoundStatement]

/-- `Optional[t]` for a non-union `t`. -/
def opt (t : PyType) : PyType := .punion [t, .pnone]

/-- `Optional[Union[...]]`, flattened. -/
def optU (args : List PyType) : PyType := .punion (args ++ [.pnone])

def TypeU : PyType := .punion typeArgs

/-- The field annotations each class declares itself (its `__annotations__`,
in declaration order), transcribed from ast.py.  The `Value` subclasses
declare no fields of their own: `kind` and `value` are annotated on `Value`
(ast.py 97-99) and handled by the `Value` machinery below. -/
def ownAnnots : Cls → List (String × PyType)
  | .Int | .Bool | .Name | .Rune | .Float | .String | .Complex | .Operator => []
  | .MapType => [("key", TypeU), ("elem", TypeU)]
  | .ArrayType => [("len", .cls .Expression), ("elem", TypeU)]
  | .SliceType => [("elem", TypeU)]
  | .NamedType => [("name", .cls .Name), ("package", opt (.cls .Name))]
  | .StructType => [("fields", .plist (.cls .StructField))]
  | .StructField =>
      [("type", TypeU), ("name", opt (.cls .Name)), ("tags", opt (.cls .String))]
  | .ChannelType => [("dir", .channelOptions), ("elem", TypeU)]
  | .PointerType => [("base", TypeU)]
  | .FunctionType => [("type", .cls .FunctionSignature)]
  | .FunctionArgument => [("name", opt (.cls .Name)), ("type", TypeU)]
  | .FunctionSignature =>
      [("var", .bool), ("args", .plist (.cls .FunctionArgument)),
       ("rets", .plist (.cls .FunctionArgument))]
  | .InterfaceType =>
      [("decls", .plist (.punion [.cls .NamedType, .cls .InterfaceMethod]))]
  | .InterfaceMethod => [("name", .cls .Name), ("type", .cls .FunctionSignature)]
  | .Primary => [("val", .punion operandArgs), ("mods", .plist (.punion modifierArgs))]
  | .Conversion => [("type", TypeU), ("value", .cls .Expression)]
  | .Expression =>
      [("op", opt (.cls .Operator)),
       ("left", .punion [.cls .Primary, .cls .Expression]),
       ("right", opt (.cls .Expression))]
  | .Lambda => [("body", .cls .CompoundStatement), ("signature", .cls .FunctionSignature)]
  | .VarArrayType => [("elem", TypeU)]
  | .LiteralValue => [("items", .plist (.cls .Element))]
  | .Element =>
      [("key", optU [.cls .Expression, .cls .LiteralValue]),
       ("value", .punion [.cls .Expression, .cls .LiteralValue])]
  | .Composite => [("type", optU literalTypeArgs), ("value", .cls .LiteralValue)]
  | .Index => [("expr", .cls .Expression)]
  | .Slice =>
      [("pos", opt (.cls .Expression)), ("len", opt (.cls .Expression)),
       ("cap", .punion [.bool, .cls .Expression, .pnone])]
  | .Selector => [("attr", .cls .Name)]
  | .Arguments =>
      [("var", .bool), ("args", .plist (.punion (typeArgs ++ [.cls .Expression])))]
  | .Assertion => [("type", optU typeArgs)]
  | .LinkSpec => [("name", .str), ("link", .str)]
  | .InitSpec =>
      [("iota", opt .int), ("type", optU typeArgs), ("names", .plist (.cls .Name)),
       ("values", .plist (.cls .Expression)), ("consts", .bool)]
  | .TypeSpec => [("name", .cls .Name), ("type", TypeU), ("alias", .bool)]
  | .Function =>
      [("name", .cls .Name), ("opts", .functionOptions),
       ("type", .cls .FunctionSignature), ("recv", opt (.cls .FunctionArgument)),
       ("body", opt (.cls .CompoundStatement))]
  | .ImportC => [("src", .str)]
  | .ImportHere => []
  | .ImportSpec =>
      [("path", .cls .String),
       ("alias", optU [.cls .Name, .cls .ImportC, .cls .ImportHere])]
  | .Package =>
      [("name", .cls .Name), ("vars", .plist (.cls .InitSpec)),
       ("links", .plist (.cls .LinkSpec)), ("funcs", .plist (.cls .Function)),
       ("types", .plist (.cls .TypeSpec)), ("consts", .plist (.cls .InitSpec)),
       ("imports", .plist (.cls .ImportSpec))]
  | .Go => [("expr", .cls .Expression)]
  | .If =>
      [("cond", .cls .Expression), ("init", .punion simpleStatementArgs),
       ("body", .cls .CompoundStatement),
       ("branch", optU [.cls .If, .cls .CompoundStatement])]
  | .For =>
      [("cond", opt (.cls .Expression)), ("init", optU simpleStatementArgs),
       ("post", optU simpleStatementArgs), ("body", .cls .CompoundStatement)]
  | .ForRange =>
      [("svd", .bool), ("expr", .cls .Expression), ("body", .cls .CompoundStatement),
       ("terms", .plist (.punion [.cls .Name, .cls .Expression]))]
  | .Defer => [("expr", .cls .Expression)]
  | .Select => [("cases", .plist (.cls .SelectCase))]
  | .SelectCase =>
      [("body", .plist (.punion statementArgs)),
       ("expr", optU [.cls .Send, .cls .SelectReceive])]
  | .SelectReceive =>
      [("svd", .bool), ("value", .cls .Expression),
       ("terms", .plist (.punion [.cls .Name, .cls .Expression]))]
  | .Switch =>
      [("expr", opt (.cls .Expression)), ("init", optU simpleStatementArgs),
       ("cases", .plist (.cls .SwitchCase))]
  | .SwitchCase =>
      [("vals", .plist (.cls .Expression)), ("body", .plist (.punion statementArgs))]
  | .TypeSwitch =>
      [("name", opt (.cls .Name)), ("type", opt (.cls .Primary)),
       ("init", optU simpleStatementArgs), ("cases", .plist (.cls .TypeSwitchCase))]
  | .TypeSwitchCase =>
      [("body", .plist (.punion statementArgs)), ("types", .plist (.punion typeArgs))]
  | .Goto => [("label", .cls .Name)]
  | .Label => [("name", .cls .Name), ("body", .punion statementArgs)]
  | .Return => [("vals", .plist (.cls .Expression))]
  | .Break => [("label", opt (.cls .Name))]
  | .Continue => [("label", opt (.cls .Name))]
  | .Fallthrough => []
  | .Send => [("chan", .cls .Expression), ("expr", .cls .Expression)]
  | .Empty => []
  | .IncDec => [("incr", .bool), ("expr", .cls .Expression)]
  | .Assignment =>
      [("type", .cls .Operator), ("lval", .plist (.cls .Expression)),
       ("rval", .plist (.cls .Expression))]
  | .CompoundStatement => [("body", .plist (.punion statementArgs))]

/-- `Node.__annotations__` (ast.py 23-27). -/
def nodeAnnots : List (String × PyType) :=
  [("vt", .punion [.tyT, .pnone]), ("row", .int), ("col", .int), ("file", .str)]

/-- `Node.__noinit__` (ast.py 30-34): fields the generated constructor must
not initialize.  Only `Node` declares a noinit set. -/
def noinitNode : List String := ["row", "col", "file"]

/-- The membership tests `bool in vtype.__args__` and
`type(None) in vtype.__args__` of `_make_init` (utils.py 80, 86): membership
of the exact type object, i.e. a constructor test. -/
def PyType.isBool : PyType → Bool
  | .bool => true
  | _ => false

def PyType.isNone : PyType → Bool
  | .pnone => true
  | _ => false

/-- `_make_init` (utils.py 51-93): given a field annotation, the default the
synthesized constructor installs, or `none` when the field is left mandatory.
The branch order is that of the source: `bool`, `dict`, `list`, `tuple`, then
no `__origin__` (a bare class or primitive) or an origin other than `Union`
means mandatory, then `bool` membership before NoneType membership inside a
union. -/
def makeInitDefault : PyType → Option FieldVal
  | .bool => some (.vbool false)
  | .pdict => some (.vdict [])
  | .plist _ => some (.list [])
  | .ptuple => some (.vtuple [])
  | .punion args =>
      if args.any PyType.isBool then some (.vbool false)
      else if args.any PyType.isNone then some .vnone
      else none
  | _ => none

/-- The default assignments the constructor synthesized for a class installs
for the fields the class itself declares (`_build_attrs` loop, utils.py
101-105), in declaration order.  Only `Node` has a `__noinit__` set, and its
own defaults are `nodeDefaults` below; every concrete class in `Cls` declares
neither `row`, `col` nor `file`, so no per-class noinit filter is needed. -/
def genDefaults (c : Cls) : List (String × FieldVal) :=
  (ownAnnots c).filterMap fun nt => (makeInitDefault nt.2).map fun d => (nt.1, d)

/-- The default assignments `Node`'s synthesized constructor installs: of
`vt`, `row`, `col`, `file` only `vt` (an `Optional`, hence defaulted to
`None`) survives the `__noinit__` filter. -/
def nodeDefaults : List (String × FieldVal) :=
  nodeAnnots.filterMap fun nt =>
    if nt.1 ∈ noinitNode then none
    else (makeInitDefault nt.2).map fun d => (nt.1, d)

/-- A node instance: its class, the position metadata set once by
`Node.__init__` (ast.py 36-39), and the slots assigned so far (an unset
mandatory slot is simply missing; reading it raises AttributeError, the
`__slots__` behaviour).  `vt` lives in `slots` like any other non-position
slot. -/
structure Obj where
  cls   : Cls
  row   : Int
  col   : Int
  file  : String
  slots : List (String × FieldVal)

/-- Modelled from the spec: the tokenizer `Token` (an external collaborator,
spec section 6) exposes row, column, file path, a kind tag and a decoded value
payload.  The constructor parameter order is column first, matching every
clone call site `Token(self.col, self.row, self.file, TokenType.End, None)`
in ast.py together with the spec requirement (sections 3 and 4.3) that a
clone-produced node carries the same position as the original. -/
structure Token where
  col   : Int
  row   : Int
  file  : String
  kind  : TokenType
  value : FieldVal

/-- `self.__class__.__name__`, as used by `_build` (ast.py 49). -/
def clsName : Cls → String
  | .Int => "Int" | .Bool => "Bool" | .Name => "Name" | .Rune => "Rune"
  | .Float => "Float" | .String => "String" | .Complex => "Complex"
  | .Operator => "Operator"
  | .MapType => "MapType" | .ArrayType => "ArrayType" | .SliceType => "SliceType"
  | .NamedType => "NamedType" | .StructType => "StructType"
  | .StructField => "StructField" | .ChannelType => "ChannelType"
  | .PointerType => "PointerType" | .FunctionType => "FunctionType"
  | .FunctionArgument => "FunctionArgument"
  | .FunctionSignature => "FunctionSignature"
  | .InterfaceType => "InterfaceType" | .InterfaceMethod => "InterfaceMethod"
  | .Primary => "Primary" | .Conversion => "Conversion"
  | .Expression => "Expression" | .Lambda => "Lambda"
  | .VarArrayType => "VarArrayType" | .LiteralValue => "LiteralValue"
  | .Element => "Element" | .Composite => "Composite"
  | .Index => "Index" | .Slice => "Slice" | .Selector => "Selector"
  | .Arguments => "Arguments" | .Assertion => "Assertion"
  | .LinkSpec => "LinkSpec" | .InitSpec => "InitSpec" | .TypeSpec => "TypeSpec"
  | .Function => "Function" | .ImportC => "ImportC" | .ImportHere => "ImportHere"
  | .ImportSpec => "ImportSpec" | .Package => "Package"
  | .Go => "Go" | .If => "If" | .For => "For" | .ForRange => "ForRange"
  | .Defer => "Defer" | .Select => "Select" | .SelectCase => "SelectCase"
  | .SelectReceive => "SelectReceive" | .Switch => "Switch"
  | .SwitchCase => "SwitchCase" | .TypeSwitch => "TypeSwitch"
  | .TypeSwitchCase => "TypeSwitchCase"
  | .Goto => "Goto" | .Label => "Label" | .Return => "Return"
  | .Break => "Break" | .Continue => "Continue" | .Fallthrough => "Fallthrough"
  | .Send => "Send" | .Empty => "Empty" | .IncDec => "IncDec"
  | .Assignment => "Assignment" | .CompoundStatement => "CompoundStatement"

/-- The class-level `kind` tag of the `Value` subclasses (ast.py 109-133);
`none` for every class that is not a `Value` subclass. -/
def valueKind : Cls → Option TokenType
  | .Int => some .Int
  | .Bool => some .Bool
  | .Name => some .Name
  | .Rune => some .Rune
  | .Float => some .Float
  | .String => some .String
  | .Complex => some .Complex
  | .Operator => some .Operator
  | _ => none

/-- The complete fixed attribute set of a class: the union of the `__slots__`
computed by `StrictFields` along the inheritance chain - the own annotations,
`kind` and `value` from `Value` for its subclasses, and `vt`, `row`, `col`,
`file` from `Node` (utils.py 109, 134). -/
def allSlotNames (c : Cls) : List String :=
  (ownAnnots c).map Prod.fst ++
  (if (valueKind c).isSome then ["kind", "value"] else []) ++
  ["vt", "row", "col", "file"]

def slotGet : List (String × FieldVal) → String → Option FieldVal
  | [], _ => none
  | (m, w) :: rest, n => if m = n then some w else slotGet rest n

def slotSet : List (String × FieldVal) → String → FieldVal → List (String × FieldVal)
  | [], n, v => [(n, v)]
  | (m, w) :: rest, n, v =>
      if m = n then (n, v) :: rest else (m, w) :: slotSet rest n v

/-- Attribute read (`getattr`) on a slotted instance: the position slots are
the dedicated record fields; on a `Value` subclass the class attribute `kind`
shadows the `Value` slot descriptor (Python MRO lookup); any other name is
looked up among the assigned slots, and an unset or undeclared name raises
AttributeError. -/
def getattrObj (o : Obj) (n : String) : Except Err FieldVal :=
  if n = "row" then .ok (.vint o.row)
  else if n = "col" then .ok (.vint o.col)
  else if n = "file" then .ok (.vstr o.file)
  else
    match valueKind o.cls with
    | some k =>
        if n = "kind" then .ok (.tok k)
        else
          match slotGet o.slots n with
          | some v => .ok v
          | none => .error (.attributeError n)
    | none =>
        match slotGet o.slots n with
        | some v => .ok v
        | none => .error (.attributeError n)

/-- Attribute write (`setattr`) on a slotted instance: a name outside the
fixed `__slots__` set raises AttributeError (this is the strict-fields
guarantee); on a `Value` subclass the non-descriptor class attribute `kind`
found first in the MRO makes assignment to `kind` fail as well.  The position
fields are assigned only by `Node.__init__` (mirrored in `mkObj`); the clone
protocol, the one client of this operation, only ever assigns declared data
fields. -/
def setattrObj (o : Obj) (n : String) (v : FieldVal) : Except Err Obj :=
  if n ∈ allSlotNames o.cls ∧ ¬((valueKind o.cls).isSome ∧ n = "kind") then
    .ok { o with slots := slotSet o.slots n v }
  else
    .error (.attributeError n)

abbrev Store := List Obj

def getObj (st : Store) (i : Nat) : Except Err Obj :=
  match st[i]? with
  | some o => .ok o
  | none => .error (.badRef i)

def storeSetattr (st : Store) (i : Nat) (n : String) (v : FieldVal) :
    Except Err Store :=
  match getObj st i with
  | .error e => .error e
  | .ok o =>
      match setattrObj o n v with
      | .error e => .error e
      | .ok o2 => .ok (st.set i o2)

/-- Object construction `C(tk)` for a class `C` in `Cls`.

For a composite class the synthesized `__init__` installs the type-derived
defaults for the own fields and then calls `Node.__init__` - itself the
synthesized one, which defaults `vt` to None and chains to the hand-written
`Node.__init__` setting `row`, `col`, `file` from the token (utils.py
107-134, ast.py 36-39).  Classes with no defaultable own fields simply
inherit `Node.__init__`.

The `Value` subclasses run the hand-written `Value.__init__` (ast.py
101-104): the `Node` chain, then `self.value = tk.value`, then
`assert tk.kind == self.kind`.  `ImportC` (ast.py 503-506) sets `src` from
the token value and asserts a Comments token; `ImportHere` (ast.py 512-514)
asserts the operator token `.`.  A failed assert aborts construction. -/
def mkObj (c : Cls) (tk : Token) : Except Err Obj :=
  match valueKind c with
  | some k =>
      if tk.kind = k then
        .ok { cls := c, row := tk.row, col := tk.col, file := tk.file,
              slots := nodeDefaults ++ [("value", tk.value)] }
      else .error .assertionError
  | none =>
      if c = .ImportC then
        if tk.kind = .Comments then
          .ok { cls := c, row := tk.row, col := tk.col, file := tk.file,
                slots := ("src", tk.value) :: nodeDefaults }
        else .error .assertionError
      else if c = .ImportHere then
        match tk.kind, tk.value with
        | .Operator, .vstr "." =>
            .ok { cls := c, row := tk.row, col := tk.col, file := tk.file,
                  slots := nodeDefaults }
        | _, _ => .error .assertionError
      else
        .ok { cls := c, row := tk.row, col := tk.col, file := tk.file,
              slots := genDefaults c ++ nodeDefaults }

/-- Python truthiness, as used by the `x and x.clone()` pattern of the clone
methods: None, False, zero, empty strings and empty containers are falsy;
object references and enum members are truthy; a flags value is an IntFlag,
falsy exactly at 0. -/
def truthy : FieldVal → Bool
  | .ref _ => true
  | .list xs => !xs.isEmpty
  | .vtuple xs => !xs.isEmpty
  | .vdict xs => !xs.isEmpty
  | .vnone => false
  | .vbool b => b
  | .vint n => n != 0
  | .vstr s => s ≠ ""
  | .vbytes s => s ≠ ""
  | .vcomplex _ => true
  | .tok _ => true
  | .flags n => n != 0
  | .tyv _ => true

/-- `str(...)` as applied by `_build` to an assigned `vt` (ast.py 64): a
`types.Type` value renders as the text it carries; the remaining cases mirror
the textual form of Python `str` on the other payloads (never exercised -
`vt` only ever holds None or a `types.Type`). -/
def pyStr : FieldVal → String
  | .tyv s => s
  | .vstr s => s
  | .vbytes s => s
  | .vcomplex s => s
  | .vint n => toString n
  | .vbool b => if b then "True" else "False"
  | .vnone => "None"
  | _ => ""

/-- `val.decode("unicode_escape")` (ast.py 78).  Byte-level escape decoding
belongs to the external bytes object; `vbytes` carries the decoded text, so
the decode step is the identity on that carrier. -/
def unicodeEscapeDecode (s : String) : String := s

/-- Code-point comparison of strings, the order Python `sorted` uses on
attribute names. -/
def charsLt : List Char → List Char → Bool
  | [], [] => false
  | [], _ :: _ => true
  | _ :: _, [] => false
  | a :: as, b :: bs =>
      if a.toNat < b.toNat then true
      else if b.toNat < a.toNat then false
      else charsLt as bs

def strLtB (a b : String) : Bool := charsLt a.data b.data

def insertSorted (s : String) : List String → List String
  | [] => [s]
  | t :: ts => if strLtB s t then s :: t :: ts else t :: insertSorted s ts

/-- `sorted` on attribute names (all distinct), as produced by `dir` (which
returns an alphabetically sorted list). -/
def sortStrings : List String → List String
  | [] => []
  | s :: ss => insertSorted s (sortStrings ss)

/-- The attribute names `_build` iterates over (ast.py 53-60): `dir(self)`
sorted alphabetically, minus `row`, `col`, `file`, minus names starting or
ending with an underscore (all dunders and the private helpers), minus bound
methods (`clone`, `is_call`).  What remains is the declared data slots along
the inheritance chain - the own fields, `kind` (class attribute) and `value`
for `Value` subclasses, and `vt`. -/
def dumpAttrs (c : Cls) : List String :=
  sortStrings
    ((ownAnnots c).map Prod.fst ++
     (if (valueKind c).isSome then ["kind", "value"] else []) ++ ["vt"])

/-- Sequential effectful map over `Except`, the shape of both the `_build`
attribute loop and the comprehensions of `_build_list` / `_build_dict`:
the first raised exception propagates. -/
def mapME {α β : Type} : List α → (α → Except Err β) → Except Err (List β)
  | [], _ => .ok []
  | a :: as, f =>
      match f a with
      | .error e => .error e
      | .ok b =>
          match mapME as f with
          | .error e => .error e
          | .ok bs => .ok (b :: bs)

/-- One entry of the `_build` attribute loop (ast.py 61-66): the `vt`
attribute renders as `str(self.vt)` when assigned and as an explicit null
when None; every other attribute is read (an unset slot raises here,
mirroring the `getattr` in the loop) and rendered by the continuation
`bv` (`_build_val`). -/
def buildEntry (o : Obj) (bv : FieldVal → Except Err JVal) (a : String) :
    Except Err (String × JVal) :=
  if a = "vt" then
    match getattrObj o "vt" with
    | .error e => .error e
    | .ok w =>
        match w with
        | .vnone => .ok (a, .null)
        | w2 => .ok (a, .jstr (pyStr w2))
  else
    match getattrObj o a with
    | .error e => .error e
    | .ok w =>
        match bv w with
        | .error e => .error e
        | .ok j => .ok (a, j)

/-- Exception-propagating sequencing (the implicit control flow of the Python
code: the first raised exception aborts the traversal). -/
def exBind {α β : Type} (x : Except Err α) (f : α → Except Err β) :
    Except Err β :=
  match x with
  | .error e => .error e
  | .ok a => f a

theorem exBind_ok {α β : Type} (a : α) (f : α → Except Err β) :
    exBind (.ok a) f = f a := rfl

theorem exBind_error {α β : Type} (e : Err) (f : α → Except Err β) :
    exBind (.error e) f = .error e := rfl

theorem getObj_some {st : Store} {i : Nat} {o : Obj} (h : st[i]? = some o) :
    getObj st i = .ok o := by unfold getObj; rw [h]

theorem getObj_none {st : Store} {i : Nat} (h : st[i]? = none) :
    getObj st i = .error (.badRef i) := by unfold getObj; rw [h]

/-- `Node._build` / `_build_val` / `_build_list` / `_build_dict` (ast.py
44-90) as one function over slot values, driven by explicit fuel so that the
definition is structurally recursive (see `build_fuel_adequate`: fuel is
never the reason the traversal stops).

`.ref oid` is `_build` on the node `oid`: if its identity is already on the
recursion path the result is the empty mapping (the cycle guard, ast.py
45-46); otherwise a mapping of `__class__` followed by the dumped attributes,
the children rendered with the node pushed onto the path.  Lists and tuples
render element-wise, dicts entry-wise with raw keys, node references recurse,
complex and bytes render textually, everything else passes through. -/
def buildF : Nat → Store → List Nat → FieldVal → Except Err JVal
  | 0, _, _, _ => .error .fuel
  | fuel + 1, st, path, v =>
      match v with
      | .ref oid =>
          if oid ∈ path then .ok (.jobj [])
          else
            exBind (getObj st oid) fun o =>
              exBind (mapME (dumpAttrs o.cls)
                  (buildEntry o (fun w => buildF fuel st (oid :: path) w)))
                fun es =>
                  .ok (.jobj (("__class__", .jstr (clsName o.cls)) :: es))
      | .list xs =>
          exBind (mapME xs (fun w => buildF fuel st path w)) fun js =>
            .ok (.jlist js)
      | .vtuple xs =>
          exBind (mapME xs (fun w => buildF fuel st path w)) fun js =>
            .ok (.jlist js)
      | .vdict ps =>
          exBind (mapME ps (fun p =>
              exBind (buildF fuel st path p.2) fun j => .ok (p.1, j)))
            fun js => .ok (.jdict js)
      | .vnone => .ok .null
      | .vbool b => .ok (.jbool b)
      | .vint n => .ok (.jint n)
      | .vstr s => .ok (.jstr s)
      | .vbytes s => .ok (.jstr (unicodeEscapeDecode s))
      | .vcomplex s => .ok (.jstr s)
      | .tok t => .ok (.jtok t)
      | .flags n => .ok (.jflags n)
      | .tyv s => .ok (.jty s)

/-- `dump(node)`: `_build` on the node with an empty path. -/
def dumpNode (fuel : Nat) (st : Store) (oid : Nat) : Except Err JVal :=
  buildF fuel st [] (.ref oid)

/-- The four field-copy shapes occurring in the hand-written clone method
bodies of ast.py:
`cloneIt` is `ret.f = self.f.clone()`;
`optClone` is `ret.f = self.f and self.f.clone()` (Python truthiness: a falsy
value - None, or False for `Slice.cap` - propagates unchanged);
`listClone` is `ret.f = [v.clone() for v in self.f]`;
`copy` is `ret.f = self.f`. -/
inductive CloneOp
  | cloneIt | optClone | listClone | copy

/-- The clone method of each class, transcribed from ast.py: `none` means
`return self` (the leaf kinds - the `Value` subclasses, `LinkSpec`,
`ImportC`, `ImportHere`, `Fallthrough`, `Empty`); otherwise the class whose
constructor the method invokes for `ret` and the field assignments in source
order.  Note the two slips faithfully carried over: `Package.clone`
constructs `ImportSpec` (ast.py 538-547) and `SwitchCase.clone` constructs
`Switch` (ast.py 655-659). -/
def cloneSpecOf : Cls → Option (Cls × List (String × CloneOp))
  | .Int | .Bool | .Name | .Rune | .Float | .String | .Complex | .Operator => none
  | .LinkSpec => none
  | .ImportC => none
  | .ImportHere => none
  | .Fallthrough => none
  | .Empty => none
  | .MapType => some (.MapType, [("key", .cloneIt), ("elem", .cloneIt)])
  | .ArrayType => some (.ArrayType, [("len", .cloneIt), ("elem", .cloneIt)])
  | .SliceType => some (.SliceType, [("elem", .cloneIt)])
  | .NamedType => some (.NamedType, [("name", .cloneIt), ("package", .optClone)])
  | .StructType => some (.StructType, [("fields", .listClone)])
  | .StructField =>
      some (.StructField, [("type", .cloneIt), ("name", .optClone), ("tags", .optClone)])
  | .ChannelType => some (.ChannelType, [("dir", .copy), ("elem", .cloneIt)])
  | .PointerType => some (.PointerType, [("base", .cloneIt)])
  | .FunctionType => some (.FunctionType, [("type", .cloneIt)])
  | .FunctionArgument =>
      some (.FunctionArgument, [("name", .optClone), ("type", .cloneIt)])
  | .FunctionSignature =>
      some (.FunctionSignature, [("var", .copy), ("args", .listClone), ("rets", .listClone)])
  | .InterfaceType => some (.InterfaceType, [("decls", .listClone)])
  | .InterfaceMethod =>
      some (.InterfaceMethod, [("name", .cloneIt), ("type", .cloneIt)])
  | .Primary => some (.Primary, [("val", .cloneIt), ("mods", .listClone)])
  | .Conversion => some (.Conversion, [("type", .cloneIt), ("value", .cloneIt)])
  | .Expression =>
      some (.Expression, [("op", .optClone), ("left", .cloneIt), ("right", .optClone)])
  | .Lambda => some (.Lambda, [("body", .cloneIt), ("signature", .cloneIt)])
  | .VarArrayType => some (.VarArrayType, [("elem", .cloneIt)])
  | .LiteralValue => some (.LiteralValue, [("items", .listClone)])
  | .Element => some (.Element, [("key", .optClone), ("value", .cloneIt)])
  | .Composite => some (.Composite, [("type", .optClone), ("value", .cloneIt)])
  | .Index => some (.Index, [("expr", .cloneIt)])
  | .Slice =>
      some (.Slice, [("pos", .optClone), ("len", .optClone), ("cap", .optClone)])
  | .Selector => some (.Selector, [("attr", .cloneIt)])
  | .Arguments => some (.Arguments, [("var", .copy), ("args", .listClone)])
  | .Assertion => some (.Assertion, [("type", .optClone)])
  | .InitSpec =>
      some (.InitSpec, [("iota", .copy), ("type", .optClone), ("names", .listClone),
                        ("values", .listClone), ("consts", .copy)])
  | .TypeSpec =>
      some (.TypeSpec, [("name", .cloneIt), ("type", .cloneIt), ("alias", .copy)])
  | .Function =>
      some (.Function, [("opts", .copy), ("name", .cloneIt), ("type", .cloneIt),
                        ("recv", .optClone), ("body", .optClone)])
  | .ImportSpec => some (.ImportSpec, [("path", .cloneIt), ("alias", .optClone)])
  | .Package =>
      some (.ImportSpec, [("name", .cloneIt), ("vars", .listClone), ("links", .listClone),
                          ("funcs", .listClone), ("types", .listClone),
                          ("consts", .listClone), ("imports", .listClone)])
  | .Go => some (.Go, [("expr", .cloneIt)])
  | .If =>
      some (.If, [("cond", .cloneIt), ("init", .cloneIt), ("body", .cloneIt),
                  ("branch", .optClone)])
  | .For =>
      some (.For, [("body", .cloneIt), ("cond", .optClone), ("init", .optClone),
                   ("post", .optClone)])
  | .ForRange =>
      some (.ForRange, [("svd", .copy), ("expr", .cloneIt), ("body", .cloneIt),
                        ("terms", .listClone)])
  | .Defer => some (.Defer, [("expr", .cloneIt)])
  | .Select => some (.Select, [("cases", .listClone)])
  | .SelectCase => some (.SelectCase, [("body", .listClone), ("expr", .optClone)])
  | .SelectReceive =>
      some (.SelectReceive, [("svd", .copy), ("value", .cloneIt), ("terms", .listClone)])
  | .Switch =>
      some (.Switch, [("expr", .optClone), ("init", .optClone), ("cases", .listClone)])
  | .SwitchCase => some (.Switch, [("vals", .listClone), ("body", .listClone)])
  | .TypeSwitch =>
      some (.TypeSwitch, [("name", .optClone), ("type", .optClone), ("init", .optClone),
                          ("cases", .listClone)])
  | .TypeSwitchCase =>
      some (.TypeSwitchCase, [("body", .listClone), ("types", .listClone)])
  | .Goto => some (.Goto, [("label", .cloneIt)])
  | .Label => some (.Label, [("name", .cloneIt), ("body", .cloneIt)])
  | .Return => some (.Return, [("vals", .listClone)])
  | .Break => some (.Break, [("label", .optClone)])
  | .Continue => some (.Continue, [("label", .optClone)])
  | .Send => some (.Send, [("chan", .cloneIt), ("expr", .cloneIt)])
  | .IncDec => some (.IncDec, [("incr", .copy), ("expr", .cloneIt)])
  | .Assignment =>
      some (.Assignment, [("type", .cloneIt), ("lval", .listClone), ("rval", .listClone)])
  | .CompoundStatement => some (.CompoundStatement, [("body", .listClone)])

/-- `[v.clone() for v in xs]`: clone each element in order, threading the
store (new objects are appended as they are created).  `cv` is the
element-clone continuation. -/
def mapMSt (cv : Store → FieldVal → Except Err (Store × FieldVal)) :
    Store → List FieldVal → Except Err (Store × List FieldVal)
  | st, [] => .ok (st, [])
  | st, x :: xs =>
      match cv st x with
      | .error e => .error e
      | .ok (st2, y) =>
          match mapMSt cv st2 xs with
          | .error e => .error e
          | .ok (st3, ys) => .ok (st3, y :: ys)

/-- Evaluate the right-hand side of one clone field assignment. -/
def applyOp (cv : Store → FieldVal → Except Err (Store × FieldVal))
    (st : Store) (op : CloneOp) (v : FieldVal) :
    Except Err (Store × FieldVal) :=
  match op with
  | .copy => .ok (st, v)
  | .cloneIt => cv st v
  | .optClone => if truthy v then cv st v else .ok (st, v)
  | .listClone =>
      match v with
      | .list xs =>
          match mapMSt cv st xs with
          | .error e => .error e
          | .ok (st2, ys) => .ok (st2, .list ys)
      | .vtuple xs =>
          match mapMSt cv st xs with
          | .error e => .error e
          | .ok (st2, ys) => .ok (st2, .list ys)
      | _ => .error .typeError

/-- Run the field assignments of a clone method body in order: read the
field from the original (`self`), evaluate the right-hand side, and
`setattr` it onto the fresh object `nid` (which raises AttributeError when
the target class does not declare the field - the `__slots__` strictness). -/
def foldFields (o : Obj) (nid : Nat)
    (cv : Store → FieldVal → Except Err (Store × FieldVal)) :
    Store → List (String × CloneOp) → Except Err (Store × Nat)
  | st, [] => .ok (st, nid)
  | st, (f, op) :: rest =>
      match getattrObj o f with
      | .error e => .error e
      | .ok v =>
          match applyOp cv st op v with
          | .error e => .error e
          | .ok (st2, v2) =>
              match storeSetattr st2 nid f v2 with
              | .error e => .error e
              | .ok st3 => foldFields o nid cv st3 rest

/-- `x.clone()`.  On a node reference: a leaf kind returns the same instance;
a composite kind builds `ret` from a synthetic end-of-stream token carrying
the original position - `Token(self.col, self.row, self.file, TokenType.End,
None)` - appends it to the store (a fresh identity), runs the field
assignments, and returns the new reference.  Calling `.clone()` on any
non-node value (None, a bool, ...) raises AttributeError.  Fuel bounds the
recursion depth of the embedding; every theorem about clone either fixes a
concrete fuel or quantifies over it. -/
def cloneF : Nat → Store → FieldVal → Except Err (Store × FieldVal)
  | 0, _, _ => .error .fuel
  | fuel + 1, st, v =>
      match v with
      | .ref oid =>
          match getObj st oid with
          | .error e => .error e
          | .ok o =>
              match cloneSpecOf o.cls with
              | none => .ok (st, .ref oid)
              | some (tgt, fields) =>
                  match mkObj tgt ⟨o.col, o.row, o.file, .End, .vnone⟩ with
                  | .error e => .error e
                  | .ok r =>
                      match foldFields o st.length
                          (fun st2 w => cloneF fuel st2 w) (st ++ [r]) fields with
                      | .error e => .error e
                      | .ok (st2, nid) => .ok (st2, .ref nid)
      | _ => .error (.attributeError "clone")

/-- `node.clone()` at the object level. -/
def cloneNode (fuel : Nat) (st : Store) (oid : Nat) :
    Except Err (Store × FieldVal) :=
  cloneF fuel st (.ref oid)

/-! ### Store-extension invariant of the clone protocol

Cloning only ever appends fresh objects to the store and updates the slots
of objects it created itself; it never moves an existing object and never
touches position metadata of any object.  `StoreExt st st2` captures what the
position-preservation theorem needs: every object of `st` is still at its
index in `st2` with the same position. -/

def posEq (a b : Obj) : Prop :=
  a.row = b.row ∧ a.col = b.col ∧ a.file = b.file

def StoreExt (st st2 : Store) : Prop :=
  st.length ≤ st2.length ∧
  ∀ (i : Nat) (o : Obj), st[i]? = some o → ∃ o2, st2[i]? = some o2 ∧ posEq o2 o

theorem posEq_refl (a : Obj) : posEq a a := ⟨rfl, rfl, rfl⟩

theorem storeExt_refl (st : Store) : StoreExt st st :=
  ⟨le_refl _, fun _ o h => ⟨o, h, posEq_refl o⟩⟩

theorem storeExt_trans {s1 s2 s3 : Store} (h1 : StoreExt s1 s2)
    (h2 : StoreExt s2 s3) : StoreExt s1 s3 := by
  refine ⟨le_trans h1.1 h2.1, fun i o h => ?_⟩
  obtain ⟨o2, ho2, hp2⟩ := h1.2 i o h
  obtain ⟨o3, ho3, hp3⟩ := h2.2 i o2 ho2
  exact ⟨o3, ho3, hp3.1.trans hp2.1, hp3.2.1.trans hp2.2.1, hp3.2.2.trans hp2.2.2⟩

theorem storeExt_append (st : Store) (l : List Obj) : StoreExt st (st ++ l) := by
  refine ⟨by simp, fun i o h => ⟨o, ?_, posEq_refl o⟩⟩
  have hi : i < st.length := by
    by_contra hge
    simp [List.getElem?_eq_none (Nat.le_of_not_lt hge)] at h
  rw [List.getElem?_append_left hi]
  exact h

theorem getObj_eq {st : Store} {i : Nat} {o : Obj} (h : getObj st i = .ok o) :
    st[i]? = some o := by
  unfold getObj at h
  split at h
  · cases h; assumption
  · cases h

theorem setattrObj_pos {o : Obj} {n : String} {v : FieldVal} {o2 : Obj}
    (h : setattrObj o n v = .ok o2) : posEq o2 o := by
  unfold setattrObj at h
  split at h
  · cases h; exact ⟨rfl, rfl, rfl⟩
  · cases h

theorem storeSetattr_ext {st : Store} {i : Nat} {n : String} {v : FieldVal}
    {st2 : Store} (h : storeSetattr st i n v = .ok st2) : StoreExt st st2 := by
  unfold storeSetattr at h
  split at h
  · cases h
  · rename_i o hg
    split at h
    · cases h
    · rename_i o2 hs
      cases h
      have hio : st[i]? = some o := getObj_eq hg
      refine ⟨by simp, fun j oj hj => ?_⟩
      by_cases hij : i = j
      · subst hij
        have hoo : oj = o := by rw [hio] at hj; cases hj; rfl
        subst hoo
        have hlen : i < st.length := by
          by_contra hge
          simp [List.getElem?_eq_none (Nat.le_of_not_lt hge)] at hio
        exact ⟨o2, List.getElem?_set_self hlen, setattrObj_pos hs⟩
      · exact ⟨oj, by rw [List.getElem?_set_ne hij]; exact hj, posEq_refl oj⟩

theorem mapMSt_ext {cv : Store → FieldVal → Except Err (Store × FieldVal)}
    (hcv : ∀ st v st2 w, cv st v = .ok (st2, w) → StoreExt st st2) :
    ∀ xs st st2 ys, mapMSt cv st xs = .ok (st2, ys) → StoreExt st st2 := by
  intro xs
  induction xs with
  | nil => intro st st2 ys h; cases h; exact storeExt_refl _
  | cons x xs ih =>
      intro st st2 ys h
      unfold mapMSt at h
      split at h
      · cases h
      · rename_i stm y h1
        split at h
        · cases h
        · rename_i stn ys2 h2
          cases h
          exact storeExt_trans (hcv st x stm y h1) (ih stm _ _ h2)

theorem applyOp_ext {cv : Store → FieldVal → Except Err (Store × FieldVal)}
    (hcv : ∀ st v st2 w, cv st v = .ok (st2, w) → StoreExt st st2) :
    ∀ op st v st2 w, applyOp cv st op v = .ok (st2, w) → StoreExt st st2 := by
  intro op st v st2 w h
  unfold applyOp at h
  split at h
  · cases h; exact storeExt_refl _
  · exact hcv st v st2 w h
  · split at h
    · exact hcv st v st2 w h
    · cases h; exact storeExt_refl _
  · split at h
    · split at h
      · cases h
      · rename_i stm ys2 h1
        cases h
        exact mapMSt_ext hcv _ st _ _ h1
    · split at h
      · cases h
      · rename_i stm ys2 h1
        cases h
        exact mapMSt_ext hcv _ st _ _ h1
    all_goals cases h

theorem foldFields_ext {cv : Store → FieldVal → Except Err (Store × FieldVal)}
    (hcv : ∀ st v st2 w, cv st v = .ok (st2, w) → StoreExt st st2)
    (o : Obj) (nid : Nat) :
    ∀ fs st st2 m, foldFields o nid cv st fs = .ok (st2, m) →
      StoreExt st st2 ∧ m = nid := by
  intro fs
  induction fs with
  | nil => intro st st2 m h; cases h; exact ⟨storeExt_refl _, rfl⟩
  | cons fop rest ih =>
      intro st st2 m h
      unfold foldFields at h
      split at h
      · cases h
      · rename_i v h1
        split at h
        · cases h
        · rename_i stm v2 h2
          split at h
          · cases h
          · rename_i st3 h3
            obtain ⟨hext, hm⟩ := ih st3 st2 m h
            exact ⟨storeExt_trans (applyOp_ext hcv fop.2 st v stm v2 h2)
              (storeExt_trans (storeSetattr_ext h3) hext), hm⟩

theorem cloneF_ext :
    ∀ fuel st v st2 w, cloneF fuel st v = .ok (st2, w) → StoreExt st st2 := by
  intro fuel
  induction fuel with
  | zero => intro st v st2 w h; cases h
  | succ fuel ih =>
      intro st v st2 w h
      unfold cloneF at h
      split at h
      · split at h
        · cases h
        · rename_i o hg
          split at h
          · cases h; exact storeExt_refl _
          · rename_i tgt fields hs
            split at h
            · cases h
            · rename_i r hm
              split at h
              · cases h
              · rename_i stm nid2 hf
                cases h
                exact storeExt_trans (storeExt_append st [r])
                  (foldFields_ext (fun a b c d hh => ih a b c d hh)
                    o st.length fields (st ++ [r]) _ _ hf).1
      · cases h

theorem mkObj_pos {c : Cls} {tk : Token} {o : Obj} (h : mkObj c tk = .ok o) :
    o.row = tk.row ∧ o.col = tk.col ∧ o.file = tk.file := by
  unfold mkObj at h
  split at h
  · split at h
    · cases h; exact ⟨rfl, rfl, rfl⟩
    · cases h
  · split at h
    · split at h
      · cases h; exact ⟨rfl, rfl, rfl⟩
      · cases h
    · split at h
      · split at h
        · cases h; exact ⟨rfl, rfl, rfl⟩
        · cases h
      · cases h; exact ⟨rfl, rfl, rfl⟩

/-- C3: whenever `clone` returns on a node, the returned node carries the
position metadata (row, column, file path) of the original.  The clone of a
leaf kind is the original itself; the clone of a composite kind is built from
the synthetic token `Token(self.col, self.row, self.file, TokenType.End,
None)` whose position `Node.__init__` copies back, and the subsequent field
assignments never touch position metadata (`cloneF_ext`). -/
theorem clone_preserves_position :
    ∀ fuel st oid st2 w, cloneF fuel st (.ref oid) = .ok (st2, w) →
      ∃ nid o o2, w = .ref nid ∧ st[oid]? = some o ∧ st2[nid]? = some o2 ∧
        o2.row = o.row ∧ o2.col = o.col ∧ o2.file = o.file := by
  intro fuel st oid st2 w h
  cases fuel with
  | zero => cases h
  | succ fuel =>
      unfold cloneF at h
      split at h
      · rename_i v2 oid2 heqv
        injection heqv with he
        subst he
        split at h
        · cases h
        · rename_i o hg
          split at h
          · cases h
            exact ⟨oid, o, o, rfl, getObj_eq hg, getObj_eq hg, rfl, rfl, rfl⟩
          · rename_i tgt fields hs
            split at h
            · cases h
            · rename_i r hm
              split at h
              · cases h
              · rename_i stm nid2 hf
                cases h
                have hext : StoreExt (st ++ [r]) st2 ∧ nid2 = st.length :=
                  foldFields_ext (fun a b c d hh => cloneF_ext fuel a b c d hh)
                    o st.length fields (st ++ [r]) _ _ hf
                obtain ⟨hex, hnid⟩ := hext
                subst hnid
                obtain ⟨o2, ho2, hp⟩ :=
                  hex.2 st.length r (List.getElem?_concat_length st r)
                obtain ⟨hr, hc, hfi⟩ := mkObj_pos hm
                exact ⟨st.length, o, o2, rfl, getObj_eq hg, ho2,
                  hp.1.trans hr, hp.2.1.trans hc, hp.2.2.trans hfi⟩
      · rename_i v2 nc
        exact absurd rfl (nc oid)

/-! ### Termination of the dump traversal

The cycle guard makes `_build` terminate on arbitrary object graphs: each
recursive descent into a node adds a fresh store identity to the path, so the
number of store identities not yet on the path strictly decreases, and within
one node the descent through list / tuple / dict values is structural.  In
the fuel-indexed embedding this becomes: for every store, path and value
there is a fuel bound beyond which `buildF` never reports fuel exhaustion. -/

def unvisited (n : Nat) (path : List Nat) : Nat :=
  ((Finset.range n).filter (fun i => i ∉ path)).card

theorem unvisited_cons_lt {n i : Nat} {path : List Nat} (hi : i < n)
    (hp : i ∉ path) : unvisited n (i :: path) < unvisited n path := by
  apply Finset.card_lt_card
  have hsub : (Finset.range n).filter (fun x => x ∉ i :: path) ⊆
      (Finset.range n).filter (fun x => x ∉ path) :=
    Finset.monotone_filter_right _ fun x hxi hxp =>
      hxi (List.mem_cons_of_mem i hxp)
  rw [Finset.ssubset_iff_of_subset hsub]
  exact ⟨i, Finset.mem_filter.mpr ⟨Finset.mem_range.mpr hi, hp⟩,
    fun hmem => (Finset.mem_filter.mp hmem).2 (List.mem_cons_self i path)⟩

theorem list_exists_bound {α : Type} (l : List α) (Q : α → Nat → Prop)
    (hmono : ∀ a n n2, n ≤ n2 → Q a n → Q a n2)
    (h : ∀ a ∈ l, ∃ n, Q a n) : ∃ N, ∀ a ∈ l, Q a N := by
  induction l with
  | nil => exact ⟨0, fun a ha => absurd ha (List.not_mem_nil a)⟩
  | cons a l ih =>
      obtain ⟨n, hn⟩ := h a (List.mem_cons_self a l)
      obtain ⟨N, hN⟩ := ih fun b hb => h b (List.mem_cons_of_mem a hb)
      refine ⟨max n N, fun b hb => ?_⟩
      rcases List.mem_cons.mp hb with hba | hbl
      · subst hba; exact hmono b n (max n N) (le_max_left n N) hn
      · exact hmono b N (max n N) (le_max_right n N) (hN b hbl)

theorem mapME_ne_fuel {α β : Type} (l : List α) (f : α → Except Err β)
    (h : ∀ a ∈ l, f a ≠ .error .fuel) : mapME l f ≠ .error .fuel := by
  induction l with
  | nil => intro hc; cases hc
  | cons a l ih =>
      unfold mapME
      split
      · rename_i e hfa
        intro hc
        cases hc
        exact h a (List.mem_cons_self a l) hfa
      · rename_i b hfa
        split
        · rename_i e hrest
          intro hc
          cases hc
          exact ih (fun x hx => h x (List.mem_cons_of_mem a hx)) hrest
        · intro hc; cases hc

theorem getattrObj_ne_fuel (o : Obj) (n : String) :
    getattrObj o n ≠ .error .fuel := by
  unfold getattrObj
  split
  · intro hc; cases hc
  · split
    · intro hc; cases hc
    · split
      · intro hc; cases hc
      · split
        · split
          · intro hc; cases hc
          · split
            · intro hc; cases hc
            · intro hc; cases hc
        · split
          · intro hc; cases hc
          · intro hc; cases hc

theorem buildEntry_ne_fuel {o : Obj} {a : String}
    {bf : FieldVal → Except Err JVal}
    (hb : a ≠ "vt" → ∀ w, getattrObj o a = .ok w → bf w ≠ .error .fuel) :
    buildEntry o bf a ≠ .error .fuel := by
  unfold buildEntry
  split
  · rename_i hvt
    split
    · rename_i e hg
      intro hc
      cases hc
      exact getattrObj_ne_fuel o "vt" (hvt ▸ hg)
    · split
      · intro hc; cases hc
      · intro hc; cases hc
  · rename_i hvt
    split
    · rename_i e hg
      intro hc
      cases hc
      exact getattrObj_ne_fuel o a hg
    · rename_i w hg
      split
      · rename_i e hbw
        intro hc
        cases hc
        exact hb hvt w hg hbw
      · intro hc; cases hc

/-- C8 core: for every store, path and value there is a fuel bound beyond
which the dump traversal never exhausts fuel - the embedded counterpart of
`_build` terminating on arbitrary (even cyclic) object graphs.  The descent
into a node strictly shrinks the set of store identities not yet on the
path (`unvisited`); the descent through container values is structural. -/
theorem build_fuel_adequate (st : Store) :
    ∀ path v, ∃ fuel, ∀ f2, fuel ≤ f2 → buildF f2 st path v ≠ .error .fuel := by
  intro path v
  generalize hu : unvisited st.length path = u
  induction u using Nat.strong_induction_on generalizing path v with
  | _ u ihu =>
  generalize hm : sizeOf v = m
  induction m using Nat.strong_induction_on generalizing v with
  | _ m ihm =>
  cases v with
  | ref oid =>
      by_cases hmem : oid ∈ path
      · refine ⟨1, fun f2 hf2 => ?_⟩
        cases f2 with
        | zero => omega
        | succ k =>
            simp only [buildF]
            rw [if_pos hmem]
            intro hc; cases hc
      · cases hoid : st[oid]? with
        | none =>
            refine ⟨1, fun f2 hf2 => ?_⟩
            cases f2 with
            | zero => omega
            | succ k =>
                simp only [buildF]
                rw [if_neg hmem, getObj_none hoid, exBind_error]
                intro hc; cases hc
        | some o =>
            have hlt : oid < st.length := by
              by_contra hge
              simp [List.getElem?_eq_none (Nat.le_of_not_lt hge)] at hoid
            have hu2 : unvisited st.length (oid :: path) < u :=
              hu ▸ unvisited_cons_lt hlt hmem
            have hQ : ∀ a ∈ dumpAttrs o.cls, ∃ n, ∀ f2, n ≤ f2 →
                buildEntry o (fun w => buildF f2 st (oid :: path) w) a ≠
                  .error .fuel := by
              intro a ha
              by_cases hva : a = "vt"
              · exact ⟨0, fun f2 _ =>
                  buildEntry_ne_fuel (fun hne => absurd hva hne)⟩
              · cases hga : getattrObj o a with
                | error e =>
                    exact ⟨0, fun f2 _ => buildEntry_ne_fuel
                      (fun _ w hw => by rw [hga] at hw; cases hw)⟩
                | ok w =>
                    obtain ⟨n, hn⟩ := ihu _ hu2 (oid :: path) w rfl
                    exact ⟨n, fun f2 hf2 => buildEntry_ne_fuel
                      (fun _ w2 hw2 => by
                        rw [hga] at hw2
                        cases hw2
                        exact hn f2 hf2)⟩
            obtain ⟨N, hN⟩ := list_exists_bound (dumpAttrs o.cls) _
              (fun a n n2 hle hq f2 hf2 => hq f2 (le_trans hle hf2)) hQ
            refine ⟨N + 1, fun f2 hf2 => ?_⟩
            cases f2 with
            | zero => omega
            | succ k =>
                have hk : N ≤ k := by omega
                simp only [buildF]
                rw [if_neg hmem, getObj_some hoid, exBind_ok]
                have hmap := mapME_ne_fuel (dumpAttrs o.cls)
                  (buildEntry o (fun w => buildF k st (oid :: path) w))
                  (fun a ha => hN a ha k hk)
                cases hres : mapME (dumpAttrs o.cls)
                    (buildEntry o (fun w => buildF k st (oid :: path) w)) with
                | error e =>
                    rw [exBind_error]
                    intro hc
                    cases hc
                    exact hmap hres
                | ok es =>
                    rw [exBind_ok]
                    intro hc; cases hc
  | list xs =>
      have hQ : ∀ w ∈ xs, ∃ n, ∀ f2, n ≤ f2 →
          buildF f2 st path w ≠ .error .fuel := by
        intro w hw
        have hsz : sizeOf w < sizeOf (FieldVal.list xs) := by
          have h1 : sizeOf w < sizeOf xs := List.sizeOf_lt_of_mem hw
          simp only [FieldVal.list.sizeOf_spec]
          omega
        exact ihm _ (hm ▸ hsz) w rfl
      obtain ⟨N, hN⟩ := list_exists_bound xs _
        (fun a n n2 hle hq f2 hf2 => hq f2 (le_trans hle hf2)) hQ
      refine ⟨N + 1, fun f2 hf2 => ?_⟩
      cases f2 with
      | zero => omega
      | succ k =>
          have hk : N ≤ k := by omega
          simp only [buildF]
          have hmap := mapME_ne_fuel xs (fun w => buildF k st path w)
            (fun w hw => hN w hw k hk)
          cases hres : mapME xs (fun w => buildF k st path w) with
          | error e =>
              rw [exBind_error]
              intro hc
              cases hc
              exact hmap hres
          | ok js =>
              rw [exBind_ok]
              intro hc; cases hc
  | vtuple xs =>
      have hQ : ∀ w ∈ xs, ∃ n, ∀ f2, n ≤ f2 →
          buildF f2 st path w ≠ .error .fuel := by
        intro w hw
        have hsz : sizeOf w < sizeOf (FieldVal.vtuple xs) := by
          have h1 : sizeOf w < sizeOf xs := List.sizeOf_lt_of_mem hw
          simp only [FieldVal.vtuple.sizeOf_spec]
          omega
        exact ihm _ (hm ▸ hsz) w rfl
      obtain ⟨N, hN⟩ := list_exists_bound xs _
        (fun a n n2 hle hq f2 hf2 => hq f2 (le_trans hle hf2)) hQ
      refine ⟨N + 1, fun f2 hf2 => ?_⟩
      cases f2 with
      | zero => omega
      | succ k =>
          have hk : N ≤ k := by omega
          simp only [buildF]
          have hmap := mapME_ne_fuel xs (fun w => buildF k st path w)
            (fun w hw => hN w hw k hk)
          cases hres : mapME xs (fun w => buildF k st path w) with
          | error e =>
              rw [exBind_error]
              intro hc
              cases hc
              exact hmap hres
          | ok js =>
              rw [exBind_ok]
              intro hc; cases hc
  | vdict ps =>
      have hQ : ∀ p ∈ ps, ∃ n, ∀ f2, n ≤ f2 →
          (exBind (buildF f2 st path p.2) fun j =>
            (.ok (p.1, j) : Except Err (FieldVal × JVal))) ≠ .error .fuel := by
        intro p hp
        have hsz : sizeOf p.2 < sizeOf (FieldVal.vdict ps) := by
          have h1 : sizeOf p < sizeOf ps := List.sizeOf_lt_of_mem hp
          have h2 : sizeOf p = 1 + sizeOf p.1 + sizeOf p.2 := by
            cases p; simp
          simp only [FieldVal.vdict.sizeOf_spec]
          omega
        obtain ⟨n, hn⟩ := ihm _ (hm ▸ hsz) p.2 rfl
        refine ⟨n, fun f2 hf2 => ?_⟩
        cases hbv : buildF f2 st path p.2 with
        | error e =>
            rw [exBind_error]
            intro hc
            cases hc
            exact hn f2 hf2 hbv
        | ok j =>
            rw [exBind_ok]
            intro hc; cases hc
      obtain ⟨N, hN⟩ := list_exists_bound ps _
        (fun a n n2 hle hq f2 hf2 => hq f2 (le_trans hle hf2)) hQ
      refine ⟨N + 1, fun f2 hf2 => ?_⟩
      cases f2 with
      | zero => omega
      | succ k =>
          have hk : N ≤ k := by omega
          simp only [buildF]
          have hmap := mapME_ne_fuel ps
            (fun p => exBind (buildF k st path p.2) fun j => .ok (p.1, j))
            (fun p hp => hN p hp k hk)
          cases hres : mapME ps
              (fun p => exBind (buildF k st path p.2) fun j => .ok (p.1, j)) with
          | error e =>
              rw [exBind_error]
              intro hc
              cases hc
              exact hmap hres
          | ok js =>
              rw [exBind_ok]
              intro hc; cases hc
  | vnone =>
      refine ⟨1, fun f2 hf2 => ?_⟩
      cases f2 with
      | zero => omega
      | succ k => simp only [buildF]; intro hc; cases hc
  | vbool b =>
      refine ⟨1, fun f2 hf2 => ?_⟩
      cases f2 with
      | zero => omega
      | succ k => simp only [buildF]; intro hc; cases hc
  | vint n =>
      refine ⟨1, fun f2 hf2 => ?_⟩
      cases f2 with
      | zero => omega
      | succ k => simp only [buildF]; intro hc; cases hc
  | vstr s2 =>
      refine ⟨1, fun f2 hf2 => ?_⟩
      cases f2 with
      | zero => omega
      | succ k => simp only [buildF]; intro hc; cases hc
  | vbytes s2 =>
      refine ⟨1, fun f2 hf2 => ?_⟩
      cases f2 with
      | zero => omega
      | succ k => simp only [buildF]; intro hc; cases hc
  | vcomplex s2 =>
      refine ⟨1, fun f2 hf2 => ?_⟩
      cases f2 with
      | zero => omega
      | succ k => simp only [buildF]; intro hc; cases hc
  | tok t =>
      refine ⟨1, fun f2 hf2 => ?_⟩
      cases f2 with
      | zero => omega
      | succ k => simp only [buildF]; intro hc; cases hc
  | flags n =>
      refine ⟨1, fun f2 hf2 => ?_⟩
      cases f2 with
      | zero => omega
      | succ k => simp only [buildF]; intro hc; cases hc
  | tyv s2 =>
      refine ⟨1, fun f2 hf2 => ?_⟩
      cases f2 with
      | zero => omega
      | succ k => simp only [buildF]; intro hc; cases hc

/-! ### Auxiliary lemmas for the claim theorems -/

theorem slotGet_append_none {l1 l2 : List (String × FieldVal)} {n : String}
    (h : slotGet l1 n = none) : slotGet (l1 ++ l2) n = slotGet l2 n := by
  induction l1 with
  | nil => rfl
  | cons mw l1 ih =>
      obtain ⟨m2, w2⟩ := mw
      simp only [slotGet] at h
      rw [List.cons_append]
      simp only [slotGet]
      split at h
      · cases h
      · rename_i hne
        rw [if_neg hne]
        exact ih h

theorem vt_not_in_genDefaults : ∀ c : Cls, slotGet (genDefaults c) "vt" = none := by
  intro c
  cases c <;> rfl

/-- The synthesized constructor of every kind assigns `vt := None`: `vt` is
not in the `__noinit__` exclusion set, and its `Optional` annotation defaults
it.  Part of the amended C9. -/
theorem mkObj_vt {c : Cls} {tk : Token} {o : Obj} (h : mkObj c tk = .ok o) :
    slotGet o.slots "vt" = some .vnone := by
  unfold mkObj at h
  split at h
  · split at h
    · cases h; rfl
    · cases h
  · split at h
    · split at h
      · cases h; rfl
      · cases h
    · split at h
      · split at h
        · cases h; rfl
        · cases h
      · cases h
        show slotGet (genDefaults c ++ nodeDefaults) "vt" = some .vnone
        rw [slotGet_append_none (vt_not_in_genDefaults c)]
        rfl

theorem slotSet_mem {l : List (String × FieldVal)} {n m : String}
    {v w : FieldVal} (h : (m, w) ∈ slotSet l n v) :
    m = n ∨ ∃ w2, (m, w2) ∈ l := by
  induction l with
  | nil =>
      unfold slotSet at h
      rcases List.mem_singleton.mp h with h2
      exact Or.inl (congrArg Prod.fst h2)
  | cons mw l ih =>
      unfold slotSet at h
      split at h
      · rcases List.mem_cons.mp h with h2 | h2
        · exact Or.inl (congrArg Prod.fst h2)
        · exact Or.inr ⟨w, List.mem_cons_of_mem mw h2⟩
      · rcases List.mem_cons.mp h with h2 | h2
        · exact Or.inr ⟨w, h2 ▸ List.mem_cons_self mw l⟩
        · rcases ih h2 with h3 | ⟨w2, h3⟩
          · exact Or.inl h3
          · exact Or.inr ⟨w2, List.mem_cons_of_mem mw h3⟩

/-! ### Concrete fixtures

Hand-assembled stores used by the per-claim theorems.  Each object is a
fully-assigned node of its kind (every mandatory slot present), written out
literally so the theorems evaluate by reduction. -/

/-- A `Name` leaf holding the identifier `main`. -/
def nameObj : Obj :=
  { cls := .Name, row := 1, col := 1, file := "m.gp",
    slots := [("vt", .vnone), ("value", .vstr "main")] }

/-- A fully-assigned `Package` (its `name` mandatory slot points at
`nameObj`, every list field empty), together with its `Name` child. -/
def pkgStore : Store :=
  [nameObj,
   { cls := .Package, row := 1, col := 1, file := "m.gp",
     slots := [("name", .ref 0), ("vars", .list []), ("links", .list []),
               ("funcs", .list []), ("types", .list []), ("consts", .list []),
               ("imports", .list []), ("vt", .vnone)] }]

/-- A fully-assigned `SwitchCase` with no case values and an empty body. -/
def swStore : Store :=
  [{ cls := .SwitchCase, row := 2, col := 3, file := "s.gp",
     slots := [("vals", .list []), ("body", .list []), ("vt", .vnone)] }]

/-- A fully-assigned `Slice` modifier whose `cap` slot holds the given
value (its `pos` and `len` stay at their `None` defaults). -/
def sliceStore (capv : FieldVal) : Store :=
  [{ cls := .Slice, row := 4, col := 5, file := "sl.gp",
     slots := [("pos", .vnone), ("len", .vnone), ("cap", capv), ("vt", .vnone)] }]

/-- A one-node graph with a cycle: a `PointerType` whose `base` field is the
node itself. -/
def cycStore : Store :=
  [{ cls := .PointerType, row := 1, col := 1, file := "c.gp",
     slots := [("base", .ref 0), ("vt", .vnone)] }]

/-- The token of the C5 scenario: kind Int, value 42, row 3, col 7,
file a.gp (the constructor takes the column first). -/
def intTok : Token := ⟨7, 3, "a.gp", .Int, .vint 42⟩

/-- An arbitrary construction token for `Package` (no hand-written
constructor, so no kind check applies). -/
def pkgTok : Token := ⟨1, 1, "a.gp", .End, .vnone⟩

/-! ### Claim theorems -/

/-- C1 (code bug): the spec claim `dump(clone(n)) == dump(n)` for every node
with its mandatory subtree assigned fails on `Package`: dump of a fully
assigned `Package` succeeds, but `Package.clone` (ast.py 538-547) constructs
an `ImportSpec` and immediately raises AttributeError assigning `name`, so
`dump(clone(n))` never produces a value.  The first conjunct evaluates dump
on the original, the second evaluates clone at the same failing input. -/
theorem package_clone_attribute_error :
    dumpNode 9 pkgStore 1 =
      .ok (.jobj [("__class__", .jstr "Package"),
                  ("consts", .jlist []), ("funcs", .jlist []),
                  ("imports", .jlist []), ("links", .jlist []),
                  ("name", .jobj [("__class__", .jstr "Name"),
                                  ("kind", .jtok .Name),
                                  ("value", .jstr "main"), ("vt", .null)]),
                  ("types", .jlist []), ("vars", .jlist []), ("vt", .null)]) ∧
    cloneNode 9 pkgStore 1 = .error (.attributeError "name") :=
  ⟨rfl, rfl⟩

/-- C2 (code bug): clone does not return a new instance of the same node
kind for every composite kind: `SwitchCase.clone` (ast.py 651-659)
constructs a `Switch` and raises AttributeError assigning `vals` into the
`Switch` slot set. -/
theorem switchcase_clone_attribute_error :
    cloneNode 9 swStore 0 = .error (.attributeError "vals") ∧
    (cloneSpecOf Cls.SwitchCase).map Prod.fst = some Cls.Switch ∧
    Cls.Switch ≠ Cls.SwitchCase :=
  ⟨rfl, rfl, by decide⟩

/-- C3 witness: cloning the fully-assigned `Slice` fixture returns a fresh
node at index 1 carrying the position of the original. -/
theorem clone_preserves_position_witness :
    ∃ nid o o2, FieldVal.ref 1 = FieldVal.ref nid ∧
      (sliceStore .vnone)[0]? = some o ∧
      (sliceStore .vnone ++ sliceStore .vnone)[nid]? = some o2 ∧
      o2.row = o.row ∧ o2.col = o.col ∧ o2.file = o.file :=
  clone_preserves_position 5 (sliceStore .vnone) 0
    (sliceStore .vnone ++ sliceStore .vnone) (.ref 1) rfl

/-- C4 counterexample: dumping a freshly constructed `Package` does not
yield the claimed mapping - the attribute loop of `_build` reads the unset
mandatory slot `name` (after collecting `consts`, `funcs`, `imports`,
`links` in sorted order) and raises AttributeError instead. -/
theorem package_fresh_dump_counterexample :
    exBind (mkObj .Package pkgTok) (fun o => dumpNode 9 [o] 0) ≠
      .ok (.jobj [("__class__", .jstr "Package"), ("name", .null),
                  ("vars", .jlist []), ("links", .jlist []),
                  ("funcs", .jlist []), ("types", .jlist []),
                  ("consts", .jlist []), ("imports", .jlist [])]) := by
  intro h
  have h2 : (Except.error (Err.attributeError "name") : Except Err JVal) =
      .ok (.jobj [("__class__", .jstr "Package"), ("name", .null),
                  ("vars", .jlist []), ("links", .jlist []),
                  ("funcs", .jlist []), ("types", .jlist []),
                  ("consts", .jlist []), ("imports", .jlist [])]) := h
  cases h2

/-- C4 amended: dumping a freshly constructed `Package` fails with an
attribute-access error on the unset mandatory field `name`, and reading
`name` directly before assignment fails the same way (this second part of
the original claim holds as stated). -/
theorem package_fresh_dump_amended :
    exBind (mkObj .Package pkgTok) (fun o => dumpNode 9 [o] 0) =
      .error (.attributeError "name") ∧
    exBind (mkObj .Package pkgTok) (fun o => getattrObj o "name") =
      .error (.attributeError "name") :=
  ⟨rfl, rfl⟩

/-- C5 counterexample: the dump of an `Int` literal node built from the
token `(kind=Int, value=42, row=3, col=7, file="a.gp")` is not the claimed
mapping: it also contains the class attribute `kind`, and `vt` renders as
null because construction leaves it None (type inference has not run). -/
theorem int_literal_dump_counterexample :
    exBind (mkObj .Int intTok) (fun o => dumpNode 3 [o] 0) ≠
      .ok (.jobj [("__class__", .jstr "Int"), ("value", .jint 42),
                  ("vt", .jstr "UntypedInt")]) := by
  intro h
  have h2 : (Except.ok (.jobj [("__class__", .jstr "Int"),
      ("kind", .jtok .Int), ("value", .jint 42), ("vt", .null)]) :
      Except Err JVal) =
      .ok (.jobj [("__class__", .jstr "Int"), ("value", .jint 42),
                  ("vt", .jstr "UntypedInt")]) := h
  simp at h2

/-- C5 amended: the actual dump of that `Int` node carries `kind` and a
null `vt`; cloning it returns the identical instance (same store, same
index), as the claim states. -/
theorem int_literal_dump_amended :
    exBind (mkObj .Int intTok) (fun o => dumpNode 3 [o] 0) =
      .ok (.jobj [("__class__", .jstr "Int"), ("kind", .jtok .Int),
                  ("value", .jint 42), ("vt", .null)]) ∧
    exBind (mkObj .Int intTok) (fun o => cloneNode 3 [o] 0) =
      .ok ([{ cls := .Int, row := 3, col := 7, file := "a.gp",
              slots := [("vt", .vnone), ("value", .vint 42)] }], .ref 0) :=
  ⟨rfl, rfl⟩

/-- C6: a union annotation containing `bool` defaults to `False` because the
`bool`-membership branch of `_make_init` precedes the NoneType branch; in
particular `Slice.cap : Optional[Union[bool, Expression]]` is defaulted to
`False` by the synthesized constructor. -/
theorem union_bool_defaults_false :
    (∀ args : List PyType, args.any PyType.isBool = true →
        makeInitDefault (.punion args) = some (.vbool false)) ∧
    slotGet (genDefaults .Slice) "cap" = some (.vbool false) ∧
    exBind (mkObj .Slice pkgTok) (fun o => .ok (slotGet o.slots "cap")) =
      .ok (some (.vbool false)) := by
  refine ⟨fun args h => ?_, rfl, rfl⟩
  simp only [makeInitDefault]
  rw [if_pos h]

/-- C6 witness: the exact annotation of `Slice.cap`, the flattened
`Optional[Union[bool, Expression]]`, is defaulted to `False`. -/
theorem union_bool_defaults_false_witness :
    makeInitDefault (.punion [.bool, .cls .Expression, .pnone]) =
      some (.vbool false) :=
  union_bool_defaults_false.1 [.bool, .cls .Expression, .pnone] rfl

/-- C7: assigning an attribute name outside a kind's fixed slot set fails
with AttributeError, and a successful assignment can only target a declared
name - it never introduces a slot name that was not either the assigned
declared name or already present, so the attribute set never grows beyond
the set fixed at class definition time. -/
theorem strict_attribute_set (o : Obj) (n : String) (v : FieldVal) :
    (n ∉ allSlotNames o.cls → setattrObj o n v = .error (.attributeError n)) ∧
    (∀ o2, setattrObj o n v = .ok o2 →
      n ∈ allSlotNames o.cls ∧ o2.cls = o.cls ∧
      ∀ m w, (m, w) ∈ o2.slots → m = n ∨ ∃ w2, (m, w2) ∈ o.slots) := by
  constructor
  · intro hn
    unfold setattrObj
    rw [if_neg (fun hc => hn hc.1)]
  · intro o2 h
    unfold setattrObj at h
    split at h
    · rename_i hc
      cases h
      exact ⟨hc.1, rfl, fun m w hm => slotSet_mem hm⟩
    · cases h

/-- C7 witness: assigning `bogus` on a `Name` node fails; assigning the
declared `value` slot succeeds and only touches `value`. -/
theorem strict_attribute_set_witness :
    setattrObj nameObj "bogus" .vnone = .error (.attributeError "bogus") ∧
    ("value" ∈ allSlotNames Cls.Name ∧
      ({ cls := .Name, row := 1, col := 1, file := "m.gp",
         slots := [("vt", .vnone), ("value", .vstr "x")] } : Obj).cls =
        nameObj.cls ∧
      ∀ m w, (m, w) ∈ ({ cls := .Name, row := 1, col := 1, file := "m.gp",
                          slots := [("vt", .vnone), ("value", .vstr "x")] } :
                          Obj).slots →
        m = "value" ∨ ∃ w2, (m, w2) ∈ nameObj.slots) :=
  ⟨(strict_attribute_set nameObj "bogus" .vnone).1 (by decide),
   (strict_attribute_set nameObj "value" (.vstr "x")).2 _ rfl⟩

/-- C8: dump terminates on every node graph - for every store and root
there is a fuel bound the traversal never exhausts - and on a concrete
one-node cycle (a `PointerType` whose `base` is itself) it yields the empty
mapping at the repeated occurrence instead of recursing. -/
theorem dump_cycle_terminates :
    (∀ (st : Store) (oid : Nat), ∃ fuel, dumpNode fuel st oid ≠ .error .fuel) ∧
    dumpNode 3 cycStore 0 =
      .ok (.jobj [("__class__", .jstr "PointerType"), ("base", .jobj []),
                  ("vt", .null)]) := by
  constructor
  · intro st oid
    obtain ⟨fuel, hf⟩ := build_fuel_adequate st [] (.ref oid)
    exact ⟨fuel, hf fuel (le_refl fuel)⟩
  · rfl

/-- C9 counterexample: `vt` is not in the exclusion list (`Node.__noinit__`
holds only the position fields), and the synthesized `Node` constructor
does auto-default it - to None - as the constructed `Package` shows. -/
theorem vt_exclusion_counterexample :
    "vt" ∉ noinitNode ∧ nodeDefaults = [("vt", .vnone)] ∧
    exBind (mkObj .Package pkgTok) (fun o => .ok (slotGet o.slots "vt")) =
      .ok (some .vnone) :=
  ⟨by decide, rfl, rfl⟩

/-- C9 amended: the exclusion list contains exactly the position metadata
`row`, `col`, `file`; the inferred-type field `vt` is auto-defaulted to None
(rendered as an explicit null by dump) by the generic constructor of every
kind, rather than being left unset. -/
theorem vt_autodefaulted_amended :
    noinitNode = ["row", "col", "file"] ∧
    (∀ (c : Cls) (tk : Token) (o : Obj), mkObj c tk = .ok o →
      slotGet o.slots "vt" = some .vnone) :=
  ⟨rfl, fun _ _ _ h => mkObj_vt h⟩

/-- C9 amended witness: the freshly constructed `Package` has `vt = None`. -/
theorem vt_autodefaulted_amended_witness :
    slotGet ({ cls := .Package, row := 1, col := 1, file := "a.gp",
               slots := [("vars", .list []), ("links", .list []),
                         ("funcs", .list []), ("types", .list []),
                         ("consts", .list []), ("imports", .list []),
                         ("vt", .vnone)] } : Obj).slots "vt" = some .vnone :=
  vt_autodefaulted_amended.2 .Package pkgTok _ rfl

/-- C10: `Slice.clone` propagates `cap` unchanged when it is None or False
(the falsy short-circuit of `self.cap and self.cap.clone()`), but when
`cap` holds True it calls `.clone()` on the boolean and fails with an
attribute-access error - clone is not total over the declared field type. -/
theorem slice_clone_cap :
    cloneNode 5 (sliceStore .vnone) 0 =
      .ok (sliceStore .vnone ++ sliceStore .vnone, .ref 1) ∧
    cloneNode 5 (sliceStore (.vbool false)) 0 =
      .ok (sliceStore (.vbool false) ++ sliceStore (.vbool false), .ref 1) ∧
    cloneNode 5 (sliceStore (.vbool true)) 0 =
      .error (.attributeError "clone") :=
  ⟨rfl, rfl, rfl⟩

/-- C8 witness: on the concrete cyclic store, dump at fuel 3 is not a fuel
failure (it is the cycle-guarded mapping). -/
theorem dump_cycle_terminates_witness :
    dumpNode 3 cycStore 0 ≠ .error .fuel := by
  intro hc
  rw [dump_cycle_terminates.2] at hc
  cases hc

end GoPlus
